import Mathlib

/-!
Verification development for the committee-management core of a walrus
storage node (crates/walrus-service/src/node/committee/committee_service.rs).
Pure shallow embedding: epochs are u64 values modelled as Nat with explicit
wrap-around, the per-member service registry is an association list with
HashMap insert/remove semantics, and the fallible service factory is an
oracle indexed by call number.
-/

namespace Walrus

/-- Modelled from the spec: a committee member has an identity (public key)
and an ordered list of assigned shard indices.  The concrete Member type
lives in the walrus-sui crate, outside the provided sources. -/
structure Member where
  public_key : Nat
  shard_ids : List Nat
deriving DecidableEq, Repr

/-- Modelled from the spec: a committee is an epoch-tagged ordered list of
members together with the total shard count.  The concrete Committee type
lives in the walrus-sui crate, outside the provided sources. -/
structure Committee where
  epoch : Nat
  members : List Member
  n_shards : Nat
deriving DecidableEq, Repr

/-- Modelled from the spec: membership test used by the transition protocol
and the authorization checks. -/
def Committee.contains (c : Committee) (pk : Nat) : Bool :=
  c.members.any (fun m => m.public_key == pk)

/-- Modelled from the spec: the shard-to-member assignment function returns
the index of the unique member whose shard list holds the shard. -/
def Committee.member_index_for_shard (c : Committee) (shard : Nat) : Option Nat :=
  c.members.findIdx? (fun m => m.shard_ids.contains shard)

/-- Modelled from the spec: the window of at most three committees held by
the tracker (previous, current, next).  The concrete ActiveCommittees type
lives in common/active_committees.rs, outside the provided sources. -/
structure ActiveCommittees where
  previous : Option Committee
  current : Committee
  next : Option Committee
deriving DecidableEq, Repr

/-- Modelled from the spec: the committee tracker bundles the window with
the change-in-progress flag. -/
structure CommitteeTracker where
  committees : ActiveCommittees
  change_in_progress : Bool
deriving DecidableEq, Repr

/-- Size of the u64 epoch domain. -/
def u64size : Nat := 2 ^ 64

/-- Wrapping u64 increment, the release-mode semantics of epoch + 1. -/
def u64succ (x : Nat) : Nat := (x + 1) % u64size

/-- Wrapping u64 decrement, the release-mode semantics of epoch - 1. -/
def u64pred (x : Nat) : Nat := (x + (u64size - 1)) % u64size

/-- True exactly when evaluating x - 1 on a u64 would wrap below zero. -/
def u64subOneWraps (x : Nat) : Bool := x == 0

/-- Modelled from the spec: the derived next epoch of the tracker is the
current epoch plus one (u64 arithmetic). -/
def CommitteeTracker.next_epoch (t : CommitteeTracker) : Nat :=
  u64succ t.committees.current.epoch

/-- Modelled from the spec: error returned by set_committee_for_next_epoch
when a next committee is already recorded; it hands the offered committee
back to the caller. -/
structure NextCommitteeAlreadySet where
  committee : Committee
deriving DecidableEq, Repr

/-- Modelled from the spec: errors of start_change. -/
inductive StartChangeError where
  | UnknownNextCommittee
  | ChangeInProgress
deriving DecidableEq, Repr

/-- Modelled from the spec: error of end_change when no change is in
progress. -/
inductive ChangeNotInProgress where
  | mk
deriving DecidableEq, Repr

/-- Modelled from the spec: record the committee for the next epoch.
Transitions Stable to NextKnown; when a next committee is already stored
the call fails with NextCommitteeAlreadySet carrying the offered value
(the caller then performs the identity check). -/
def set_committee_for_next_epoch (t : CommitteeTracker) (c : Committee) :
    Except NextCommitteeAlreadySet CommitteeTracker :=
  match t.committees.next with
  | some _ => .error ⟨c⟩
  | none => .ok { t with committees := { t.committees with next := some c } }

/-- Modelled from the spec: start the committee change.  Requires state
NextKnown; fails with ChangeInProgress when already Changing and with
UnknownNextCommittee when no next committee is recorded. -/
def start_change (t : CommitteeTracker) : Except StartChangeError CommitteeTracker :=
  if t.change_in_progress then .error .ChangeInProgress
  else
    match t.committees.next with
    | none => .error .UnknownNextCommittee
    | some _ => .ok { t with change_in_progress := true }

/-- Modelled from the spec: end the committee change.  Requires state
Changing; promotes next to current, moves current to previous (dropping
the prior previous), clears next and the flag, and returns the retired
committee.  Fails with ChangeNotInProgress otherwise. -/
def end_change (t : CommitteeTracker) :
    Except ChangeNotInProgress (CommitteeTracker × Committee) :=
  if t.change_in_progress then
    match t.committees.next with
    | some nxt =>
        .ok ({ committees :=
                 { previous := some t.committees.current
                   current := nxt
                   next := none }
               change_in_progress := false },
             t.committees.current)
    | none => .error .mk
  else .error .mk

/-- Modelled from the spec: look up the committee in the window whose epoch
matches the argument. -/
def committee_for_epoch (ac : ActiveCommittees) (e : Nat) : Option Committee :=
  if ac.current.epoch = e then some ac.current
  else if ac.previous.map (fun p => p.epoch) = some e then ac.previous
  else if ac.next.map (fun p => p.epoch) = some e then ac.next
  else none

/-! Registry: an association list with the lookup, remove and overwrite
semantics of the HashMap of services keyed by member public key. -/

/-- Lookup of a service handle by public key (first matching entry). -/
def lookupService {T : Type} : List (Nat × T) → Nat → Option T
  | [], _ => none
  | e :: rest, pk => if e.1 = pk then some e.2 else lookupService rest pk

/-- Removal of every entry of a public key, the HashMap remove. -/
def removeService {T : Type} : List (Nat × T) → Nat → List (Nat × T)
  | [], _ => []
  | e :: rest, pk =>
      if e.1 = pk then removeService rest pk else e :: removeService rest pk

/-- Insert with overwrite, the HashMap insert. -/
def insertService {T : Type} (s : List (Nat × T)) (pk : Nat) (v : T) :
    List (Nat × T) :=
  (pk, v) :: removeService s pk

/-- Merge of a freshly built service map into the registry, the HashMap
extend used at the end of begin_committee_change_to. -/
def extendServices {T : Type} (base news : List (Nat × T)) : List (Nat × T) :=
  news.foldl (fun b e => insertService b e.1 e.2) base

/-! Errors of the transition protocol, from committee_service.rs and its
sibling error definitions. -/

/-- Errors of begin_committee_change. -/
inductive BeginCommitteeChangeError where
  | EpochIsNotSequential (expected actual : Nat)
  | EpochIsTheSameAsCurrent
  | EpochIsLess (expected actual : Nat)
  | AllServicesFailed (msg : String)
  | ChangeAlreadyInProgress
  | LookupError
  | LatestCommitteeEpochDiffers (latest_committee : Committee) (expected_epoch : Nat)
deriving DecidableEq, Repr

/-- Errors of end_committee_change. -/
inductive EndCommitteeChangeError where
  | ProvidedEpochIsInTheFuture (provided expected : Nat)
  | ProvidedEpochIsInThePast (provided expected : Nat)
  | EpochChangeAlreadyDone
deriving DecidableEq, Repr

/-- Combined state of the service: the tracker plus the service registry.
This is the part of NodeCommitteeServiceInner that the transition protocol
reads and writes. -/
structure ServiceState (T : Type) where
  tracker : CommitteeTracker
  services : List (Nat × T)
deriving DecidableEq, Repr

/-- Epoch accessor of the facade: the current epoch of the tracker. -/
def get_epoch {T : Type} (st : ServiceState T) : Nat :=
  st.tracker.committees.current.epoch

/-! Service construction.  The fallible factory is an oracle indexed by the
number of make_service calls issued so far: call number k yields oracle k,
none meaning the factory failed for that call. -/

/-- Loop body of add_members_from_committee: walk the members in order,
consuming one oracle entry per member; a success inserts (overwriting) the
service for that member and bumps n_created, a failure is skipped.
Returns the map, the next call index and n_created. -/
def add_members_go {T : Type} (oracle : Nat → Option T) :
    List Member → List (Nat × T) → Nat → Nat → List (Nat × T) × Nat × Nat
  | [], services, k, n => (services, k, n)
  | m :: rest, services, k, n =>
    match oracle k with
    | some s =>
        add_members_go oracle rest (insertService services m.public_key s) (k + 1) (n + 1)
    | none => add_members_go oracle rest services (k + 1) n

/-- Mirror of add_members_from_committee: build a service for every member,
skipping per-member failures, and fail when not a single service could be
created. -/
def add_members_from_committee {T : Type} (oracle : Nat → Option T)
    (services : List (Nat × T)) (committee : Committee) (k : Nat) :
    Except String (List (Nat × T) × Nat) :=
  let r := add_members_go oracle committee.members services k 0
  if r.2.2 ≠ 0 then .ok (r.1, r.2.1)
  else .error "failed to create any service from the committee"

/-- Mirror of create_services_from_committee: add the members of a committee
to an initially empty map. -/
def create_services_from_committee {T : Type} (oracle : Nat → Option T)
    (committee : Committee) (k : Nat) : Except String (List (Nat × T) × Nat) :=
  add_members_from_committee oracle [] committee k

/-- Mirror of NodeCommitteeServiceInner.new: build the initial service map
from the current committee, then add the members of the current committee a
second time onto that same map.  Returns the map and the final call index. -/
def inner_new {T : Type} (oracle : Nat → Option T) (tracker : CommitteeTracker) :
    Except String (List (Nat × T) × Nat) :=
  match create_services_from_committee oracle tracker.committees.current 0 with
  | .error e => .error e
  | .ok (services, k) =>
    match add_members_from_committee oracle services tracker.committees.current k with
    | .error e => .error e
    | .ok (services2, k2) => .ok (services2, k2)

/-! Transition protocol (begin). -/

/-- Outcome of the tracker-modifying closure inside
begin_committee_change_to.  fatal stands for a Rust panic (a failed assert
or an unreachable branch): a non-recoverable contract violation, distinct
from every ordinary error. -/
inductive ModifyOutcome where
  | ok (t : CommitteeTracker)
  | err (e : BeginCommitteeChangeError)
  | fatal
deriving DecidableEq, Repr

/-- Mirror of lines 255-266 of committee_service.rs: record the committee
for the next epoch, treating NextCommitteeAlreadySet with an identical
stored committee as a no-op and a differing stored committee as a fatal
contract violation (none). -/
def record_next_committee (t : CommitteeTracker) (c : Committee) :
    Option CommitteeTracker :=
  match set_committee_for_next_epoch t c with
  | .ok t2 => some t2
  | .error _ =>
    match t.committees.next with
    | none => none
    | some stored => if c = stored then some t else none

/-- Mirror of the modify_tracker closure of begin_committee_change_to:
assert the epoch matches the expected next epoch, record the next
committee, then start the change. -/
def modify_tracker_for_begin (t : CommitteeTracker) (c : Committee) : ModifyOutcome :=
  if t.next_epoch ≠ c.epoch then .fatal
  else
    match record_next_committee t c with
    | none => .fatal
    | some t2 =>
      match start_change t2 with
      | .ok t3 => .ok t3
      | .error .UnknownNextCommittee => .fatal
      | .error .ChangeInProgress => .err .ChangeAlreadyInProgress

/-- Outcome of the begin protocol paired with the resulting state. -/
inductive BeginOutcome where
  | ok
  | err (e : BeginCommitteeChangeError)
  | fatal
deriving DecidableEq, Repr

/-- Mirror of begin_committee_change_to: pre-build the services for the new
committee, apply the tracker modification, and only on success merge the
pre-built services into the registry; on every error path the state is
returned unchanged and the pre-built handles are discarded. -/
def begin_committee_change_to {T : Type} (st : ServiceState T)
    (next_committee : Committee) (oracle : Nat → Option T) :
    BeginOutcome × ServiceState T :=
  match create_services_from_committee oracle next_committee 0 with
  | .error msg => (.err (.AllServicesFailed msg), st)
  | .ok (new_services, _) =>
    match modify_tracker_for_begin st.tracker next_committee with
    | .fatal => (.fatal, st)
    | .err e => (.err e, st)
    | .ok t2 => (.ok, ⟨t2, extendServices st.services new_services⟩)

/-- Mirror of the epoch classification at the head of
begin_committee_change (lines 534-548), with u64 arithmetic. -/
def begin_epoch_check (t : CommitteeTracker) (new_epoch : Nat) :
    Option BeginCommitteeChangeError :=
  if new_epoch > t.next_epoch then
    some (.EpochIsNotSequential t.next_epoch new_epoch)
  else if new_epoch = u64pred t.next_epoch then
    some .EpochIsTheSameAsCurrent
  else if new_epoch < u64pred t.next_epoch then
    some (.EpochIsLess t.next_epoch new_epoch)
  else none

/-- Mirror of begin_committee_change: classify the epoch, consult the
lookup source (modelled as the current committee it reports, none standing
for a lookup failure), check its epoch, then run
begin_committee_change_to. -/
def begin_committee_change {T : Type} (st : ServiceState T) (new_epoch : Nat)
    (lookup : Option Committee) (oracle : Nat → Option T) :
    BeginOutcome × ServiceState T :=
  match begin_epoch_check st.tracker new_epoch with
  | some e => (.err e, st)
  | none =>
    match lookup with
    | none => (.err .LookupError, st)
    | some latest =>
      if latest.epoch = st.tracker.next_epoch then
        begin_committee_change_to st latest oracle
      else
        (.err (.LatestCommitteeEpochDiffers latest st.tracker.next_epoch), st)

/-! Transition protocol (end). -/

/-- Mirror of the registry cleanup loop of end_committee_change_to: drop
the service of every member of the outgoing committee that the committee
passed as current does not contain. -/
def remove_outgoing {T : Type} (current outgoing : Committee)
    (services : List (Nat × T)) : List (Nat × T) :=
  outgoing.members.foldl
    (fun svcs m =>
      if current.contains m.public_key then svcs
      else removeService svcs m.public_key)
    services

/-- Mirror of end_committee_change_to: check the epoch against the current
epoch, capture the current committee, end the change on the tracker
(ChangeNotInProgress becoming EpochChangeAlreadyDone), then clean up the
registry.  As in the source, the committee used as the retention test is
the one captured before end_change ran. -/
def end_committee_change_to {T : Type} (st : ServiceState T) (epoch : Nat) :
    Except EndCommitteeChangeError (ServiceState T) :=
  let current_epoch := get_epoch st
  if epoch > current_epoch then
    .error (.ProvidedEpochIsInTheFuture epoch current_epoch)
  else if epoch < current_epoch then
    .error (.ProvidedEpochIsInThePast epoch current_epoch)
  else
    let current := st.tracker.committees.current
    match end_change st.tracker with
    | .error _ => .error .EpochChangeAlreadyDone
    | .ok (t2, outgoing) => .ok ⟨t2, remove_outgoing current outgoing st.services⟩

/-! Shard handoff. -/

/-- Errors of the remote node service, abstracted. -/
inductive NodeServiceErrorM where
  | Node (e : Nat)
  | Other (e : Nat)
deriving DecidableEq, Repr

/-- Errors of the shard sync client. -/
inductive SyncShardClientError where
  | NoSyncClient
  | RequestError (e : Nat)
  | OtherError (e : Nat)
deriving DecidableEq, Repr

/-- Outcome of sync_shard_as_of_epoch; fatal stands for the expect that
fires when the shard is not valid for the committee. -/
inductive SyncOutcome (A : Type) where
  | ok (a : A)
  | err (e : SyncShardClientError)
  | fatal
deriving DecidableEq, Repr

/-- Mirror of sync_shard_as_of_epoch: resolve the committee of the epoch
before current_epoch, find the member owning the shard there, obtain its
handle from the registry or else build one with the factory, then issue a
single request (send, modelling the oneshot call) and wrap its error. -/
def sync_shard_as_of_epoch {T A : Type} (st : ServiceState T) (shard : Nat)
    (current_epoch : Nat) (factory : Member → Option T)
    (send : T → Except NodeServiceErrorM A) : SyncOutcome A :=
  match committee_for_epoch st.tracker.committees (u64pred current_epoch) with
  | none => .err .NoSyncClient
  | some committee =>
    match (committee.member_index_for_shard shard).bind
        (fun index => committee.members[index]?) with
    | none => .fatal
    | some node_info =>
      match
        (match lookupService st.services node_info.public_key with
         | some s => some s
         | none => factory node_info) with
      | none => .err .NoSyncClient
      | some service =>
        match send service with
        | .ok a => .ok a
        | .error (.Node e) => .err (.RequestError e)
        | .error (.Other e) => .err (.OtherError e)

/-! Helper lemmas about the epoch arithmetic. -/

theorem u64_next_epoch (t : CommitteeTracker)
    (h : t.committees.current.epoch + 1 < u64size) :
    t.next_epoch = t.committees.current.epoch + 1 := by
  simp [CommitteeTracker.next_epoch, u64succ, Nat.mod_eq_of_lt h]

theorem u64pred_succ (x : Nat) (h : x + 1 < u64size) : u64pred (x + 1) = x := by
  have h2 : x + 1 + (u64size - 1) = x + u64size := by
    have : 1 ≤ u64size := by norm_num [u64size]
    omega
  have hx : x < u64size := by omega
  simp [u64pred, h2, Nat.add_mod_right, Nat.mod_eq_of_lt hx]

/-! Helper lemmas about the registry operations. -/

theorem lookup_remove_ne {T : Type} (s : List (Nat × T)) (pk q : Nat)
    (h : pk ≠ q) : lookupService (removeService s pk) q = lookupService s q := by
  induction s with
  | nil => rfl
  | cons e rest ih =>
    by_cases he : e.1 = pk
    · have hq : e.1 ≠ q := by rw [he]; exact h
      simp only [removeService, if_pos he, lookupService, if_neg hq]
      exact ih
    · simp only [removeService, if_neg he, lookupService]
      by_cases hq : e.1 = q
      · simp [hq]
      · simp only [if_neg hq]
        exact ih

theorem lookup_insert_self {T : Type} (s : List (Nat × T)) (pk : Nat) (v : T) :
    lookupService (insertService s pk v) pk = some v := by
  simp [insertService, lookupService]

theorem lookup_insert_ne {T : Type} (s : List (Nat × T)) (pk q : Nat) (v : T)
    (h : pk ≠ q) : lookupService (insertService s pk v) q = lookupService s q := by
  simp [insertService, lookupService, h, lookup_remove_ne s pk q h]

theorem lookup_insert_isSome {T : Type} (s : List (Nat × T)) (pk q : Nat) (v : T)
    (h : (lookupService s q).isSome = true) :
    (lookupService (insertService s pk v) q).isSome = true := by
  by_cases hq : pk = q
  · subst hq; simp [lookup_insert_self]
  · rw [lookup_insert_ne s pk q v hq]; exact h

theorem remove_of_absent {T : Type} (s : List (Nat × T)) (pk : Nat)
    (h : lookupService s pk = none) : removeService s pk = s := by
  induction s with
  | nil => rfl
  | cons e rest ih =>
    by_cases he : e.1 = pk
    · simp [lookupService, he] at h
    · simp only [lookupService, if_neg he] at h
      simp [removeService, he, ih h]

theorem length_insert_fresh {T : Type} (s : List (Nat × T)) (pk : Nat) (v : T)
    (h : lookupService s pk = none) :
    (insertService s pk v).length = s.length + 1 := by
  simp [insertService, remove_of_absent s pk h]

/-! Helper lemmas about add_members_go. -/

/-- Number of successful factory calls among the len calls starting at
index k. -/
def succCount {T : Type} (oracle : Nat → Option T) : Nat → Nat → Nat
  | _, 0 => 0
  | k, len + 1 =>
      (if (oracle k).isSome then 1 else 0) + succCount oracle (k + 1) len

/-- Number of failing factory calls among the len calls starting at
index k. -/
def failCount {T : Type} (oracle : Nat → Option T) : Nat → Nat → Nat
  | _, 0 => 0
  | k, len + 1 =>
      (if (oracle k).isSome then 0 else 1) + failCount oracle (k + 1) len

theorem succCount_add_failCount {T : Type} (oracle : Nat → Option T)
    (k len : Nat) : succCount oracle k len + failCount oracle k len = len := by
  induction len generalizing k with
  | zero => rfl
  | succ n ih =>
    have := ih (k + 1)
    by_cases h : (oracle k).isSome <;> simp [succCount, failCount, h] <;> omega

theorem go_calls {T : Type} (oracle : Nat → Option T) (ms : List Member)
    (s : List (Nat × T)) (k n : Nat) :
    (add_members_go oracle ms s k n).2.1 = k + ms.length := by
  induction ms generalizing s k n with
  | nil => simp [add_members_go]
  | cons m rest ih =>
    cases h : oracle k with
    | some v => simp [add_members_go, h, ih]; omega
    | none => simp [add_members_go, h, ih]; omega

theorem go_created {T : Type} (oracle : Nat → Option T) (ms : List Member)
    (s : List (Nat × T)) (k n : Nat) :
    (add_members_go oracle ms s k n).2.2 = n + succCount oracle k ms.length := by
  induction ms generalizing s k n with
  | nil => simp [add_members_go, succCount]
  | cons m rest ih =>
    cases h : oracle k with
    | some v =>
      simp [add_members_go, h, ih, succCount, Option.isSome]; omega
    | none =>
      simp [add_members_go, h, ih, succCount, Option.isSome]

theorem go_preserves_present {T : Type} (oracle : Nat → Option T)
    (ms : List Member) (s : List (Nat × T)) (k n pk : Nat)
    (h : (lookupService s pk).isSome = true) :
    (lookupService (add_members_go oracle ms s k n).1 pk).isSome = true := by
  induction ms generalizing s k n with
  | nil => exact h
  | cons m rest ih =>
    cases ho : oracle k with
    | some v =>
      simp only [add_members_go, ho]
      exact ih _ _ _ (lookup_insert_isSome _ _ _ _ h)
    | none =>
      simp only [add_members_go, ho]
      exact ih _ _ _ h

theorem go_success_present {T : Type} (oracle : Nat → Option T)
    (ms : List Member) (s : List (Nat × T)) (k n i : Nat) (hi : i < ms.length)
    (h : (oracle (k + i)).isSome = true) :
    (lookupService (add_members_go oracle ms s k n).1
        (ms.get ⟨i, hi⟩).public_key).isSome = true := by
  induction ms generalizing s k n i with
  | nil => exact absurd hi (by simp)
  | cons m rest ih =>
    cases i with
    | zero =>
      obtain ⟨v, hv⟩ := Option.isSome_iff_exists.mp (by simpa using h)
      simp only [add_members_go, hv, List.get]
      exact go_preserves_present _ _ _ _ _ _ (by simp [lookup_insert_self])
    | succ j =>
      have hj : j < rest.length := by simpa using hi
      have h2 : (oracle (k + 1 + j)).isSome = true := by
        have : k + 1 + j = k + (j + 1) := by omega
        rw [this]; exact h
      cases ho : oracle k with
      | some v => simpa [add_members_go, ho] using ih _ _ _ j hj h2
      | none => simpa [add_members_go, ho] using ih _ _ _ j hj h2

theorem go_untouched {T : Type} (oracle : Nat → Option T) (ms : List Member)
    (s : List (Nat × T)) (k n pk : Nat)
    (h : pk ∉ ms.map (fun m => m.public_key)) :
    lookupService (add_members_go oracle ms s k n).1 pk = lookupService s pk := by
  induction ms generalizing s k n with
  | nil => rfl
  | cons m rest ih =>
    simp only [List.map_cons, List.mem_cons, not_or] at h
    cases ho : oracle k with
    | some v =>
      simp only [add_members_go, ho]
      rw [ih _ _ _ h.2, lookup_insert_ne _ _ _ _ (fun he => h.1 he.symm)]
    | none =>
      simp only [add_members_go, ho]
      exact ih _ _ _ h.2

theorem go_last_write {T : Type} (oracle : Nat → Option T) (ms : List Member)
    (s : List (Nat × T)) (k n i : Nat) (hi : i < ms.length) (v : T)
    (hnd : (ms.map (fun m => m.public_key)).Nodup)
    (h : oracle (k + i) = some v) :
    lookupService (add_members_go oracle ms s k n).1
      (ms.get ⟨i, hi⟩).public_key = some v := by
  induction ms generalizing s k n i with
  | nil => exact absurd hi (by simp)
  | cons m rest ih =>
    simp only [List.map_cons, List.nodup_cons] at hnd
    cases i with
    | zero =>
      simp only [Nat.add_zero] at h
      simp only [add_members_go, h, List.get]
      rw [go_untouched _ _ _ _ _ _ hnd.1, lookup_insert_self]
    | succ j =>
      have hj : j < rest.length := by simpa using hi
      have h2 : oracle (k + 1 + j) = some v := by
        have : k + 1 + j = k + (j + 1) := by omega
        rw [this]; exact h
      cases ho : oracle k with
      | some w => simpa [add_members_go, ho] using ih _ _ _ j hj hnd.2 h2
      | none => simpa [add_members_go, ho] using ih _ _ _ j hj hnd.2 h2

theorem go_length_fresh {T : Type} (oracle : Nat → Option T) (ms : List Member)
    (s : List (Nat × T)) (k n : Nat)
    (hnd : (ms.map (fun m => m.public_key)).Nodup)
    (hfresh : ∀ m ∈ ms, lookupService s m.public_key = none) :
    (add_members_go oracle ms s k n).1.length
      = s.length + succCount oracle k ms.length := by
  induction ms generalizing s k n with
  | nil => simp [add_members_go, succCount]
  | cons m rest ih =>
    simp only [List.map_cons, List.nodup_cons] at hnd
    cases ho : oracle k with
    | some v =>
      have hfresh2 : ∀ m2 ∈ rest, lookupService (insertService s m.public_key v) m2.public_key = none := by
        intro m2 hm2
        have hne : m.public_key ≠ m2.public_key := by
          intro he
          exact hnd.1 (by rw [he]; exact List.mem_map_of_mem _ hm2)
        rw [lookup_insert_ne _ _ _ _ hne]
        exact hfresh m2 (List.mem_cons_of_mem _ hm2)
      simp only [add_members_go, ho, List.length_cons]
      rw [ih _ _ _ hnd.2 hfresh2,
          length_insert_fresh _ _ _ (hfresh m (List.mem_cons_self _ _))]
      simp [succCount, ho]
      omega
    | none =>
      have hfresh2 : ∀ m2 ∈ rest, lookupService s m2.public_key = none := by
        intro m2 hm2
        exact hfresh m2 (List.mem_cons_of_mem _ hm2)
      simp only [add_members_go, ho, List.length_cons]
      rw [ih _ _ _ hnd.2 hfresh2]
      simp [succCount, ho]

/-! Helper lemmas about extendServices. -/

theorem extend_preserves_present {T : Type} (base news : List (Nat × T))
    (pk : Nat) (h : (lookupService base pk).isSome = true) :
    (lookupService (extendServices base news) pk).isSome = true := by
  induction news generalizing base with
  | nil => exact h
  | cons e rest ih =>
    exact ih _ (lookup_insert_isSome _ _ _ _ h)

theorem extend_new_present {T : Type} (base news : List (Nat × T)) (pk : Nat)
    (h : (lookupService news pk).isSome = true) :
    (lookupService (extendServices base news) pk).isSome = true := by
  induction news generalizing base with
  | nil => simp [lookupService] at h
  | cons e rest ih =>
    by_cases he : e.1 = pk
    · subst he
      show (lookupService (extendServices (insertService base e.1 e.2) rest) e.1).isSome = true
      exact extend_preserves_present _ _ _ (by simp [lookup_insert_self])
    · simp only [lookupService, if_neg he] at h
      show (lookupService (extendServices (insertService base e.1 e.2) rest) pk).isSome = true
      exact ih _ h

/-! Characterization of add_members_from_committee in terms of the success
count of the oracle. -/

theorem add_members_ok {T : Type} (oracle : Nat → Option T)
    (s : List (Nat × T)) (c : Committee) (k : Nat)
    (h : succCount oracle k c.members.length ≠ 0) :
    add_members_from_committee oracle s c k =
      .ok ((add_members_go oracle c.members s k 0).1, k + c.members.length) := by
  have hne : (add_members_go oracle c.members s k 0).2.2 ≠ 0 := by
    rw [go_created]; omega
  simp only [add_members_from_committee, if_pos hne, go_calls]

theorem add_members_err {T : Type} (oracle : Nat → Option T)
    (s : List (Nat × T)) (c : Committee) (k : Nat)
    (h : succCount oracle k c.members.length = 0) :
    add_members_from_committee oracle s c k =
      .error "failed to create any service from the committee" := by
  have hz : ¬ (add_members_go oracle c.members s k 0).2.2 ≠ 0 := by
    rw [go_created]; omega
  simp only [add_members_from_committee, if_neg hz]

/-! Preservation of the current committee through the begin-side tracker
modification. -/

theorem record_next_preserves_current (t t2 : CommitteeTracker) (c : Committee)
    (h : record_next_committee t c = some t2) :
    t2.committees.current = t.committees.current ∧
    t2.change_in_progress = t.change_in_progress := by
  unfold record_next_committee set_committee_for_next_epoch at h
  cases hn : t.committees.next with
  | none =>
    rw [hn] at h
    simp only [Option.some.injEq] at h
    subst h
    exact ⟨rfl, rfl⟩
  | some stored =>
    rw [hn] at h
    simp only at h
    by_cases he : c = stored
    · rw [if_pos he] at h
      simp only [Option.some.injEq] at h
      subst h
      exact ⟨rfl, rfl⟩
    · rw [if_neg he] at h
      exact absurd h (by simp)

theorem start_change_ok_committees (t t2 : CommitteeTracker)
    (h : start_change t = .ok t2) : t2.committees = t.committees := by
  unfold start_change at h
  cases hf : t.change_in_progress with
  | true => rw [hf] at h; simp at h
  | false =>
    rw [hf] at h
    cases hn : t.committees.next with
    | none => simp [hn] at h
    | some nxt =>
      simp only [Bool.false_eq_true, if_false, hn, Except.ok.injEq] at h
      rw [← h]

theorem modify_ok_preserves_current (t t2 : CommitteeTracker) (c : Committee)
    (h : modify_tracker_for_begin t c = .ok t2) :
    t2.committees.current = t.committees.current := by
  by_cases hne : t.next_epoch ≠ c.epoch
  · simp only [modify_tracker_for_begin, if_pos hne] at h
    exact ModifyOutcome.noConfusion h
  · simp only [modify_tracker_for_begin, if_neg hne] at h
    cases hr : record_next_committee t c with
    | none => simp [hr] at h
    | some t3 =>
      simp only [hr] at h
      have hc := (record_next_preserves_current t t3 c hr).1
      cases hs : start_change t3 with
      | ok t4 =>
        simp only [hs, ModifyOutcome.ok.injEq] at h
        rw [← h, start_change_ok_committees t3 t4 hs]
        exact hc
      | error e => cases e <;> simp [hs] at h

/-! Concrete fixtures used by witnesses and counterexamples. -/

def memA : Member := ⟨0, [0]⟩
def memB : Member := ⟨1, [1]⟩
def comC0 : Committee := ⟨0, [memA, memB], 2⟩
def comC1 : Committee := ⟨1, [⟨0, [0, 1]⟩, ⟨2, []⟩], 2⟩
def comC1alt : Committee := ⟨1, [⟨3, [0, 1]⟩], 2⟩

def trackerStable : CommitteeTracker := ⟨⟨none, comC0, none⟩, false⟩
def trackerNextKnown : CommitteeTracker := ⟨⟨none, comC0, some comC1⟩, false⟩
def trackerChanging : CommitteeTracker := ⟨⟨none, comC0, some comC1⟩, true⟩
def trackerAfterEnd : CommitteeTracker := ⟨⟨some comC0, comC1, none⟩, false⟩

def stRetire : ServiceState Nat := ⟨trackerChanging, [(0, 10), (1, 11), (2, 12)]⟩
def stAfterRetire : ServiceState Nat := ⟨trackerAfterEnd, [(0, 10), (1, 11), (2, 12)]⟩

/-- C1: evaluation of end_committee_change_to at a changing state whose
outgoing committee holds member 1 while the incoming committee does not.
The tracker is promoted as specified (next becomes current, current becomes
previous, next cleared, flag cleared), but the registry still holds the
entry of member 1, the member exclusive to the retired committee: the
retention test of the cleanup loop uses the committee captured before
end_change, which is the outgoing committee itself, so no entry is ever
removed. -/
theorem end_change_keeps_retired_member :
    end_committee_change_to stRetire 0 = .ok stAfterRetire ∧
    stAfterRetire.tracker.committees.current = comC1 ∧
    stAfterRetire.tracker.committees.previous = some comC0 ∧
    stAfterRetire.tracker.committees.next = none ∧
    stAfterRetire.tracker.change_in_progress = false ∧
    comC0.contains 1 = true ∧
    comC1.contains 1 = false ∧
    lookupService stAfterRetire.services 1 = some 11 :=
  ⟨rfl, rfl, rfl, rfl, rfl, rfl, rfl, rfl⟩

/-- C2: with a non-wrapping current epoch, begin_committee_change proceeds
past its epoch check exactly when the new epoch equals the next epoch of
the tracker; an epoch above the next epoch yields EpochIsNotSequential, an
epoch equal to the current epoch (next epoch minus one) yields
EpochIsTheSameAsCurrent, an epoch below the current epoch yields
EpochIsLess, and in every error case the whole state (tracker and
registry) is returned unchanged. -/
theorem begin_change_epoch_classification {T : Type} (st : ServiceState T)
    (new_epoch : Nat) (lookup : Option Committee) (oracle : Nat → Option T)
    (hwf : st.tracker.committees.current.epoch + 1 < u64size) :
    (new_epoch > st.tracker.next_epoch →
       begin_committee_change st new_epoch lookup oracle =
         (.err (.EpochIsNotSequential st.tracker.next_epoch new_epoch), st)) ∧
    (new_epoch = st.tracker.committees.current.epoch →
       begin_committee_change st new_epoch lookup oracle =
         (.err .EpochIsTheSameAsCurrent, st)) ∧
    (new_epoch < st.tracker.committees.current.epoch →
       begin_committee_change st new_epoch lookup oracle =
         (.err (.EpochIsLess st.tracker.next_epoch new_epoch), st)) ∧
    (begin_epoch_check st.tracker new_epoch = none ↔
       new_epoch = st.tracker.next_epoch) := by
  have hn := u64_next_epoch st.tracker hwf
  have hq : u64pred (st.tracker.committees.current.epoch + 1)
      = st.tracker.committees.current.epoch := u64pred_succ _ hwf
  refine ⟨?_, ?_, ?_, ?_⟩
  · intro h
    have hc : begin_epoch_check st.tracker new_epoch =
        some (.EpochIsNotSequential st.tracker.next_epoch new_epoch) := by
      simp only [begin_epoch_check]
      rw [if_pos h]
    simp [begin_committee_change, hc]
  · intro h
    have hc : begin_epoch_check st.tracker new_epoch =
        some .EpochIsTheSameAsCurrent := by
      simp only [begin_epoch_check, hn, hq]
      rw [if_neg (by omega), if_pos h]
    simp [begin_committee_change, hc]
  · intro h
    have hc : begin_epoch_check st.tracker new_epoch =
        some (.EpochIsLess st.tracker.next_epoch new_epoch) := by
      simp only [begin_epoch_check, hn, hq]
      rw [if_neg (by omega), if_neg (by omega), if_pos h]
    simp [begin_committee_change, hc]
  · constructor
    · intro h
      simp only [begin_epoch_check, hn, hq] at h
      by_cases h1 : new_epoch > st.tracker.committees.current.epoch + 1
      · rw [if_pos h1] at h
        exact absurd h (by simp)
      · rw [if_neg h1] at h
        by_cases h2 : new_epoch = st.tracker.committees.current.epoch
        · rw [if_pos h2] at h
          exact absurd h (by simp)
        · rw [if_neg h2] at h
          by_cases h3 : new_epoch < st.tracker.committees.current.epoch
          · rw [if_pos h3] at h
            exact absurd h (by simp)
          · omega
    · intro h
      subst h
      simp only [begin_epoch_check, hn, hq]
      rw [if_neg (by omega), if_neg (by omega), if_neg (by omega)]

/-- C2 witness: at a concrete stable state with current epoch 0 and next
epoch 1, submitting the current epoch itself yields
EpochIsTheSameAsCurrent with the state unchanged. -/
theorem begin_change_epoch_classification_witness :
    begin_committee_change (⟨trackerStable, []⟩ : ServiceState Nat) 0
        (some comC1) (fun _ => some 1) =
      (.err .EpochIsTheSameAsCurrent, (⟨trackerStable, []⟩ : ServiceState Nat)) :=
  (begin_change_epoch_classification (⟨trackerStable, []⟩ : ServiceState Nat) 0
      (some comC1) (fun _ => some 1) (by decide)).2.1 rfl

/-- C4: when a next committee is already recorded, recording the identical
committee again is a no-op (the tracker is returned unchanged), while
recording a differing committee for the same epoch is a fatal contract
violation (the panic outcome, modelled as none), not an ordinary
recoverable error. -/
theorem set_next_committee_idempotent (t : CommitteeTracker) (c : Committee)
    (h : t.committees.next = some c) :
    record_next_committee t c = some t ∧
    ∀ c2 : Committee, c2.epoch = c.epoch → c2 ≠ c →
      record_next_committee t c2 = none := by
  constructor
  · simp [record_next_committee, set_committee_for_next_epoch, h]
  · intro c2 _ hne
    simp [record_next_committee, set_committee_for_next_epoch, h, hne]

/-- C4 witness: at the concrete state that already stores comC1 as next,
re-recording comC1 is a no-op and recording the differing comC1alt of the
same epoch is fatal. -/
theorem set_next_committee_idempotent_witness :
    record_next_committee trackerNextKnown comC1 = some trackerNextKnown ∧
    record_next_committee trackerNextKnown comC1alt = none :=
  ⟨(set_next_committee_idempotent trackerNextKnown comC1 rfl).1,
   (set_next_committee_idempotent trackerNextKnown comC1 rfl).2 comC1alt rfl
     (by decide)⟩

/-- C5: when a change is already in progress (so start_change fails),
begin_committee_change_to surfaces ChangeAlreadyInProgress and returns the
state unchanged: the pre-built service handles are discarded without being
merged into the registry. -/
theorem begin_change_already_in_progress_discards {T : Type}
    (st : ServiceState T) (c : Committee) (oracle : Nat → Option T)
    (hflag : st.tracker.change_in_progress = true)
    (hnext : st.tracker.committees.next = some c)
    (hepoch : st.tracker.next_epoch = c.epoch)
    (hsvc : ∃ p, create_services_from_committee oracle c 0 = .ok p) :
    begin_committee_change_to st c oracle =
      (.err .ChangeAlreadyInProgress, st) := by
  obtain ⟨⟨s, k⟩, hp⟩ := hsvc
  have hmod : modify_tracker_for_begin st.tracker c =
      .err .ChangeAlreadyInProgress := by
    simp [modify_tracker_for_begin, hepoch, record_next_committee,
          set_committee_for_next_epoch, hnext, start_change, hflag]
  simp [begin_committee_change_to, hp, hmod]

/-- C5 witness: at the concrete changing state, re-beginning the change to
the stored next committee with an always-succeeding factory yields
ChangeAlreadyInProgress and leaves the registry untouched. -/
theorem begin_change_already_in_progress_discards_witness :
    begin_committee_change_to stRetire comC1 (fun i => some (100 + i)) =
      (.err .ChangeAlreadyInProgress, stRetire) :=
  begin_change_already_in_progress_discards stRetire comC1
    (fun i => some (100 + i)) rfl rfl (by decide) ⟨([(2, 101), (0, 100)], 2), rfl⟩

/-- C6: end_committee_change_to rejects an epoch above the current epoch
with ProvidedEpochIsInTheFuture and an epoch below it with
ProvidedEpochIsInThePast, and when the epoch matches but no change is in
progress the tracker outcome ChangeNotInProgress is mapped to the benign
EpochChangeAlreadyDone error. -/
theorem end_change_epoch_classification {T : Type} (st : ServiceState T)
    (epoch : Nat) :
    (epoch > get_epoch st →
       end_committee_change_to st epoch =
         .error (.ProvidedEpochIsInTheFuture epoch (get_epoch st))) ∧
    (epoch < get_epoch st →
       end_committee_change_to st epoch =
         .error (.ProvidedEpochIsInThePast epoch (get_epoch st))) ∧
    (epoch = get_epoch st → st.tracker.change_in_progress = false →
       end_committee_change_to st epoch = .error .EpochChangeAlreadyDone) := by
  refine ⟨?_, ?_, ?_⟩
  · intro h
    simp [end_committee_change_to, h]
  · intro h
    have h2 : ¬ epoch > get_epoch st := by omega
    simp [end_committee_change_to, h, h2]
  · intro h hflag
    have h1 : ¬ epoch > get_epoch st := by omega
    have h2 : ¬ epoch < get_epoch st := by omega
    simp [end_committee_change_to, h1, h2, end_change, hflag]

/-- C6 witness: at the concrete stable state with current epoch 0, epoch 2
is rejected as in the future, and epoch 0 with no change in progress is
the benign EpochChangeAlreadyDone. -/
theorem end_change_epoch_classification_witness :
    end_committee_change_to (⟨trackerStable, []⟩ : ServiceState Nat) 2 =
      .error (.ProvidedEpochIsInTheFuture 2 0) ∧
    end_committee_change_to (⟨trackerStable, []⟩ : ServiceState Nat) 0 =
      .error .EpochChangeAlreadyDone :=
  ⟨(end_change_epoch_classification (⟨trackerStable, []⟩ : ServiceState Nat) 2).1
     (by decide),
   (end_change_epoch_classification (⟨trackerStable, []⟩ : ServiceState Nat) 0).2.2
     rfl rfl⟩

/-- C9 counterexample: at the tracker state whose current epoch is 0
(epoch 0 reachable as the current epoch), the expected next epoch is 1
and the u64 subtraction of one from it does not wrap below zero, contrary
to the claimed underflow. -/
theorem epoch_zero_no_underflow :
    trackerStable.committees.current.epoch = 0 ∧
    trackerStable.next_epoch = 1 ∧
    u64subOneWraps trackerStable.next_epoch = false ∧
    u64pred trackerStable.next_epoch = 0 :=
  ⟨rfl, by decide, by decide, by decide⟩

/-- C9 amended: the classification does compare new_epoch against
expected_next_epoch - 1 with unsigned u64 arithmetic, but
expected_next_epoch is the current epoch plus one, so for every state
whose current epoch is below the u64 maximum (epoch 0 included) the
subtraction does not wrap and evaluates to the current epoch; a wrap
would need the current epoch to be the u64 maximum itself. -/
theorem next_epoch_sub_never_wraps (t : CommitteeTracker)
    (h : t.committees.current.epoch + 1 < u64size) :
    u64subOneWraps t.next_epoch = false ∧
    u64pred t.next_epoch = t.committees.current.epoch := by
  have hn := u64_next_epoch t h
  constructor
  · simp [u64subOneWraps, hn]
  · rw [hn]
    exact u64pred_succ _ h

/-- C9 amended witness: the concrete changing state with current epoch 0
neither wraps nor misclassifies: the subtraction evaluates to 0. -/
theorem next_epoch_sub_never_wraps_witness :
    u64subOneWraps trackerChanging.next_epoch = false ∧
    u64pred trackerChanging.next_epoch = 0 :=
  next_epoch_sub_never_wraps trackerChanging (by decide)

/-! Decomposition helpers for the success paths of the begin protocol and
of inner-state construction. -/

theorem begin_to_ok_decomp {T : Type} (st : ServiceState T) (c : Committee)
    (oracle : Nat → Option T) (st2 : ServiceState T)
    (h : begin_committee_change_to st c oracle = (.ok, st2)) :
    ∃ ns k t2, create_services_from_committee oracle c 0 = .ok (ns, k) ∧
      modify_tracker_for_begin st.tracker c = .ok t2 ∧
      st2 = ⟨t2, extendServices st.services ns⟩ := by
  unfold begin_committee_change_to at h
  cases hc : create_services_from_committee oracle c 0 with
  | error msg => simp [hc] at h
  | ok p =>
    obtain ⟨ns, k⟩ := p
    simp only [hc] at h
    cases hm : modify_tracker_for_begin st.tracker c with
    | fatal => simp [hm] at h
    | err e => simp [hm] at h
    | ok t2 =>
      simp only [hm, Prod.mk.injEq, true_and] at h
      exact ⟨ns, k, t2, rfl, rfl, h.symm⟩

theorem create_ok_services {T : Type} (oracle : Nat → Option T) (c : Committee)
    (ns : List (Nat × T)) (k : Nat)
    (h : create_services_from_committee oracle c 0 = .ok (ns, k)) :
    ns = (add_members_go oracle c.members [] 0 0).1 := by
  simp only [create_services_from_committee, add_members_from_committee] at h
  split at h
  · simp only [Except.ok.injEq, Prod.mk.injEq] at h
    exact h.1.symm
  · exact absurd h (by simp)

/-- C3: every success of begin_committee_change leaves the current epoch
unchanged (the epoch only advances through end_committee_change) and the
resulting registry holds a handle for every member of the new committee
whose factory call succeeded. -/
theorem begin_change_registers_and_preserves_epoch {T : Type}
    (st : ServiceState T) (new_epoch : Nat) (latest : Committee)
    (oracle : Nat → Option T) (st2 : ServiceState T)
    (h : begin_committee_change st new_epoch (some latest) oracle = (.ok, st2)) :
    get_epoch st2 = get_epoch st ∧
    ∀ i (hi : i < latest.members.length), (oracle i).isSome = true →
      (lookupService st2.services
          ((latest.members).get ⟨i, hi⟩).public_key).isSome = true := by
  have hto : begin_committee_change_to st latest oracle = (.ok, st2) := by
    unfold begin_committee_change at h
    cases hc : begin_epoch_check st.tracker new_epoch with
    | some e => simp [hc] at h
    | none =>
      simp only [hc] at h
      by_cases hl : latest.epoch = st.tracker.next_epoch
      · rwa [if_pos hl] at h
      · rw [if_neg hl] at h
        simp at h
  obtain ⟨ns, k, t2, hcr, hm, hst⟩ := begin_to_ok_decomp st latest oracle st2 hto
  subst hst
  constructor
  · show t2.committees.current.epoch = st.tracker.committees.current.epoch
    rw [modify_ok_preserves_current st.tracker t2 latest hm]
  · intro i hi hsome
    have hns := create_ok_services oracle latest ns k hcr
    have hpres : (lookupService ns
        ((latest.members).get ⟨i, hi⟩).public_key).isSome = true := by
      rw [hns]
      exact go_success_present oracle latest.members [] 0 0 i hi (by simpa using hsome)
    exact extend_new_present _ _ _ hpres

/-- C3 witness: beginning the change from the concrete stable state at
epoch 0 towards comC1 with an always-succeeding factory leaves the epoch
at 0 and registers the handle of member 2 of the new committee. -/
theorem begin_change_registers_witness :
    get_epoch (⟨trackerChanging, [(0, 100), (2, 101)]⟩ : ServiceState Nat) =
      get_epoch (⟨trackerStable, []⟩ : ServiceState Nat) ∧
    (lookupService
        (⟨trackerChanging, [(0, 100), (2, 101)]⟩ : ServiceState Nat).services
        ((comC1.members).get ⟨1, by decide⟩).public_key).isSome = true :=
  ⟨(begin_change_registers_and_preserves_epoch
      (⟨trackerStable, []⟩ : ServiceState Nat) 1 comC1 (fun i => some (100 + i))
      (⟨trackerChanging, [(0, 100), (2, 101)]⟩ : ServiceState Nat) rfl).1,
   (begin_change_registers_and_preserves_epoch
      (⟨trackerStable, []⟩ : ServiceState Nat) 1 comC1 (fun i => some (100 + i))
      (⟨trackerChanging, [(0, 100), (2, 101)]⟩ : ServiceState Nat) rfl).2
      1 (by decide) rfl⟩

/-- C7: for a committee whose members carry distinct keys, a run with
exactly one factory failure (among at least two members) still succeeds
and the resulting registry holds one entry per member but the failed one,
so its size is the member count minus one; a run where every factory call
fails yields the fatal construction error. -/
theorem add_members_one_failure_tolerance {T : Type} (committee : Committee)
    (oracle : Nat → Option T)
    (hnodup : (committee.members.map (fun m => m.public_key)).Nodup) :
    (2 ≤ committee.members.length →
     failCount oracle 0 committee.members.length = 1 →
       create_services_from_committee oracle committee 0 =
         .ok ((add_members_go oracle committee.members [] 0 0).1,
              committee.members.length) ∧
       (add_members_go oracle committee.members [] 0 0).1.length
         = committee.members.length - 1) ∧
    (succCount oracle 0 committee.members.length = 0 →
       create_services_from_committee oracle committee 0 =
         .error "failed to create any service from the committee") := by
  have hsum := succCount_add_failCount oracle 0 committee.members.length
  refine ⟨?_, ?_⟩
  · intro hN hfail
    have hsucc : succCount oracle 0 committee.members.length ≠ 0 := by omega
    constructor
    · have hok := add_members_ok oracle [] committee 0 hsucc
      simpa [create_services_from_committee] using hok
    · rw [go_length_fresh oracle committee.members [] 0 0 hnodup (fun m _ => rfl)]
      simp only [List.length_nil, Nat.zero_add]
      omega
  · intro hzero
    exact add_members_err oracle [] committee 0 hzero

/-- C7 witness: on the two-member committee comC0 with the factory failing
exactly on the first call, construction succeeds with a single-entry
registry; the hypotheses (distinct keys, two members, one failure) are
discharged by evaluation. -/
theorem add_members_one_failure_tolerance_witness :
    create_services_from_committee
        (fun i => if i = 0 then none else some 5) comC0 0 =
      .ok ([((1 : Nat), (5 : Nat))], 2) ∧
    ([((1 : Nat), (5 : Nat))] : List (Nat × Nat)).length = 1 :=
  (add_members_one_failure_tolerance comC0 (fun i => if i = 0 then none else some 5)
    (by decide)).1 (by decide) (by decide)

/-- C8: sync_shard_as_of_epoch resolves its target inside the committee of
the epoch one before current_epoch: when that committee is unknown to the
tracker the call fails with NoSyncClient; when the shard owner is resolved
but its handle is neither in the registry nor constructible by the factory
the call fails with NoSyncClient; and when a handle is found in the
registry the result is exactly the single (unretried) remote call with a
node-level failure wrapped as RequestError. -/
theorem sync_shard_resolution {T A : Type} (st : ServiceState T) (shard : Nat)
    (current_epoch : Nat) (factory : Member → Option T)
    (send : T → Except NodeServiceErrorM A) :
    (committee_for_epoch st.tracker.committees (u64pred current_epoch) = none →
       sync_shard_as_of_epoch st shard current_epoch factory send =
         .err .NoSyncClient) ∧
    (∀ comm node_info,
       committee_for_epoch st.tracker.committees (u64pred current_epoch)
         = some comm →
       (comm.member_index_for_shard shard).bind
           (fun index => comm.members[index]?) = some node_info →
       ((lookupService st.services node_info.public_key = none →
           factory node_info = none →
           sync_shard_as_of_epoch st shard current_epoch factory send =
             .err .NoSyncClient) ∧
        (∀ s, lookupService st.services node_info.public_key = some s →
           sync_shard_as_of_epoch st shard current_epoch factory send =
             (match send s with
              | .ok a => .ok a
              | .error (.Node e) => .err (.RequestError e)
              | .error (.Other e) => .err (.OtherError e))))) := by
  refine ⟨?_, ?_⟩
  · intro h
    simp [sync_shard_as_of_epoch, h]
  · intro comm node_info hcomm hmem
    refine ⟨?_, ?_⟩
    · intro hl hf
      simp [sync_shard_as_of_epoch, hcomm, hmem, hl, hf]
    · intro s hl
      simp [sync_shard_as_of_epoch, hcomm, hmem, hl]

/-- C8 witness: from the post-transition state whose previous committee is
comC0, a handoff of shard 1 as of epoch 1 resolves member 1 (the owner of
shard 1 in the epoch-0 committee), uses its registry handle, and wraps the
node-level failure of the remote call as RequestError. -/
theorem sync_shard_resolution_witness :
    sync_shard_as_of_epoch (A := Nat)
        (⟨trackerAfterEnd, [(1, 11)]⟩ : ServiceState Nat) 1 1
        (fun _ => none) (fun _ => .error (.Node 7)) =
      .err (.RequestError 7) :=
  ((sync_shard_resolution (A := Nat)
      (⟨trackerAfterEnd, [(1, 11)]⟩ : ServiceState Nat) 1 1
      (fun _ => none) (fun _ => .error (.Node 7))).2
    comC0 memB rfl rfl).2 11 rfl

theorem inner_new_ok_decomp {T : Type} (oracle : Nat → Option T)
    (tracker : CommitteeTracker) (s : List (Nat × T)) (k : Nat)
    (h : inner_new oracle tracker = .ok (s, k)) :
    succCount oracle 0 tracker.committees.current.members.length ≠ 0 ∧
    succCount oracle tracker.committees.current.members.length
        tracker.committees.current.members.length ≠ 0 ∧
    s = (add_members_go oracle tracker.committees.current.members
          (add_members_go oracle tracker.committees.current.members [] 0 0).1
          tracker.committees.current.members.length 0).1 ∧
    k = 2 * tracker.committees.current.members.length := by
  by_cases h1 : succCount oracle 0 tracker.committees.current.members.length = 0
  · have herr := add_members_err oracle [] tracker.committees.current 0 h1
    unfold inner_new create_services_from_committee at h
    simp [herr] at h
  · have hcr := add_members_ok oracle [] tracker.committees.current 0 h1
    unfold inner_new create_services_from_committee at h
    simp only [hcr, Nat.zero_add] at h
    by_cases h2 : succCount oracle tracker.committees.current.members.length
        tracker.committees.current.members.length = 0
    · have herr2 := add_members_err oracle
        (add_members_go oracle tracker.committees.current.members [] 0 0).1
        tracker.committees.current
        tracker.committees.current.members.length h2
      simp [herr2] at h
    · have hok2 := add_members_ok oracle
        (add_members_go oracle tracker.committees.current.members [] 0 0).1
        tracker.committees.current
        tracker.committees.current.members.length h2
      simp only [hok2, Except.ok.injEq, Prod.mk.injEq] at h
      refine ⟨h1, h2, h.1.symm, ?_⟩
      omega

/-- C10: during initial construction of the inner state the factory is
consulted once per member in a first pass and once more per member in a
second pass over the same map (the final call index is twice the member
count), each second-pass success overwrites the first-pass entry of that
member, and success requires at least one factory success within each of
the two passes. -/
theorem inner_new_double_pass {T : Type} (tracker : CommitteeTracker)
    (oracle : Nat → Option T) :
    (∀ s k, inner_new oracle tracker = .ok (s, k) →
       k = 2 * tracker.committees.current.members.length ∧
       succCount oracle 0 tracker.committees.current.members.length ≠ 0 ∧
       succCount oracle tracker.committees.current.members.length
           tracker.committees.current.members.length ≠ 0) ∧
    ((tracker.committees.current.members.map (fun m => m.public_key)).Nodup →
     ∀ i (hi : i < tracker.committees.current.members.length) v,
       oracle (tracker.committees.current.members.length + i) = some v →
       ∀ s k, inner_new oracle tracker = .ok (s, k) →
         lookupService s
           ((tracker.committees.current.members).get ⟨i, hi⟩).public_key
           = some v) := by
  constructor
  · intro s k h
    obtain ⟨h1, h2, _, hk⟩ := inner_new_ok_decomp oracle tracker s k h
    exact ⟨hk, h1, h2⟩
  · intro hnd i hi v hv s k h
    obtain ⟨_, _, hs, _⟩ := inner_new_ok_decomp oracle tracker s k h
    rw [hs]
    exact go_last_write oracle tracker.committees.current.members _
      tracker.committees.current.members.length 0 i hi v hnd hv

def trackerSolo : CommitteeTracker := ⟨⟨none, ⟨0, [⟨0, [0]⟩], 1⟩, none⟩, false⟩

/-- C10 witness: on a single-member committee with an always-succeeding
factory, construction consumes two factory calls (final index 2 = 2 times
1) and the registry entry of the member is the second-pass service 51,
overwriting the first-pass service 50. -/
theorem inner_new_double_pass_witness :
    (2 : Nat) = 2 * 1 ∧
    lookupService [((0 : Nat), (51 : Nat))] 0 = some 51 :=
  ⟨((inner_new_double_pass trackerSolo (fun i => some (50 + i))).1
      [(0, 51)] 2 rfl).1,
   (inner_new_double_pass trackerSolo (fun i => some (50 + i))).2
      (by decide) 0 (by decide) 51 rfl [(0, 51)] 2 rfl⟩

end Walrus
